import Mathlib

/-!
# Verification of the Gmail email processor's rule engine

A shallow embedding of `src/process_emails.py` (class `EmailProcessor`):
the condition evaluator `_match_string_condition`, the per-condition
dispatcher `_match_rule` (including its date-window arithmetic), the
per-email rule loop `process_single_email`, the top-level pass
`process_emails`, and the label bookkeeping `_create_label` /
`_apply_label` / `_apply_rule_action`.

Python strings are modelled as Lean `String`, with the Python string
operations re-implemented over the underlying character list (`.data`)
so that they are easy to compute with and to reason about.  Python
`datetime` values are modelled by a record `PyDateTime` carrying the
absolute UTC instant in seconds together with the calendar fields that
`strftime` reads.  Python exceptions that escape a function are
modelled with `Except PyErr`; exceptions that the source catches
locally are resolved inside the definitions exactly where the source
catches them.  The ambient wall clock read by `datetime.now` inside
`_match_rule` is modelled as a function `clock : Nat → Int` from
sample index to instant, with the running sample index threaded
through the evaluation in the order the source reads the clock.
-/

/-! ## Python string primitives, re-implemented over `List Char` -/

/-- Python `str.lower()` (ASCII, as Lean's `Char.toLower`). -/
def pyLower (s : String) : String := ⟨s.data.map Char.toLower⟩

/-- Python `str.upper()` (ASCII, as Lean's `Char.toUpper`). -/
def pyUpper (s : String) : String := ⟨s.data.map Char.toUpper⟩

/-- Containment of `sub` as a contiguous sublist, by scanning suffixes. -/
def listContains (sub : List Char) : List Char → Bool
  | [] => sub.isPrefixOf ([] : List Char)
  | c :: cs => sub.isPrefixOf (c :: cs) || listContains sub cs

/-- Python `sub in s` (substring containment test). -/
def pyContains (s sub : String) : Bool := listContains sub.data s.data

/-- Python `s.startswith(pre)`. -/
def pyStartsWith (s pre : String) : Bool := pre.data.isPrefixOf s.data

/-- Python `s.endswith(suf)`. -/
def pyEndsWith (s suf : String) : Bool := suf.data.isSuffixOf s.data

/-- Python `s.split()` with no argument: split on whitespace runs,
dropping empty fields. -/
def pySplitWs (s : String) : List String :=
  ((s.data.splitOnP (fun c => c.isWhitespace)).map (fun l => String.mk l)).filter
    (fun t => !t.isEmpty)

/-- Python `s.replace(" ", "_")` specialised to single characters:
replace every occurrence of character `a` by character `b`. -/
def pyReplaceChar (s : String) (a b : Char) : String :=
  ⟨s.data.map (fun c => if c = a then b else c)⟩

/-- An unsigned decimal numeral, as in the core `String.toNat?`. -/
def digitsToNat? (l : List Char) : Option Nat :=
  if !l.isEmpty && l.all (fun c => c.isDigit) then
    some (l.foldl (fun n c => n * 10 + (c.toNat - '0'.toNat)) 0)
  else none

/-- Python `int(s)`: optional sign followed by decimal digits. -/
def pyInt? (s : String) : Option Int :=
  match s.data with
  | '-' :: rest => (digitsToNat? rest).map (fun n => -(n : Int))
  | '+' :: rest => (digitsToNat? rest).map (fun n => (n : Int))
  | l => (digitsToNat? l).map (fun n => (n : Int))

/-! ## Data model -/

/-- A rule condition's `value`, which in the JSON rules file is either a
single string or a list of strings (`_match_string_condition` wraps a
bare string into a one-element list). -/
inductive PyStrVal where
  | str (v : String)
  | listv (vs : List String)
deriving Repr, DecidableEq

/-- Python truthiness of a `value`: the empty string and the empty list
are falsy. -/
def PyStrVal.truthy : PyStrVal → Bool
  | .str v => !v.isEmpty
  | .listv vs => !vs.isEmpty

/-- The `isinstance(values, str)` normalisation in
`_match_string_condition`: a bare string becomes a one-element list. -/
def PyStrVal.toList : PyStrVal → List String
  | .str v => [v]
  | .listv vs => vs

/-- A timezone-aware `datetime` normalised to UTC: the absolute instant
in seconds plus the calendar fields read by `strftime`.  `weekday` is
0 for Monday through 6 for Sunday, as in Python. -/
structure PyDateTime where
  ts : Int
  year : Nat
  month : Nat
  day : Nat
  weekday : Nat
deriving Repr, DecidableEq

/-- Seconds in a day, for `timedelta(days=n)` arithmetic. -/
def secPerDay : Int := 86400

/-- Python `strftime("%B")`: full month name. -/
def monthName : Nat → String
  | 1 => "January" | 2 => "February" | 3 => "March" | 4 => "April"
  | 5 => "May" | 6 => "June" | 7 => "July" | 8 => "August"
  | 9 => "September" | 10 => "October" | 11 => "November" | 12 => "December"
  | _ => ""

/-- Python `strftime("%b")`: abbreviated month name. -/
def monthAbbr : Nat → String
  | 1 => "Jan" | 2 => "Feb" | 3 => "Mar" | 4 => "Apr" | 5 => "May" | 6 => "Jun"
  | 7 => "Jul" | 8 => "Aug" | 9 => "Sep" | 10 => "Oct" | 11 => "Nov" | 12 => "Dec"
  | _ => ""

/-- Python `strftime("%a")`: abbreviated weekday name (0 = Monday). -/
def weekdayAbbr : Nat → String
  | 0 => "Mon" | 1 => "Tue" | 2 => "Wed" | 3 => "Thu" | 4 => "Fri" | 5 => "Sat"
  | 6 => "Sun" | _ => ""

/-- Two-digit zero-padded day, `strftime("%d")`. -/
def pad2 (n : Nat) : String := if n < 10 then "0" ++ toString n else toString n

/-- The format `email_date.strftime("%B_%Y")` used in the `month` branch. -/
def strftimeBY (d : PyDateTime) : String := monthName d.month ++ "_" ++ toString d.year

/-- The format `email_date.strftime("%Y")` used in the `year` branch. -/
def strftimeY (d : PyDateTime) : String := toString d.year

/-- The format `email_date.strftime("%a, %d %b %Y")` used in the `equals` branch. -/
def strftimeFull (d : PyDateTime) : String :=
  weekdayAbbr d.weekday ++ ", " ++ pad2 d.day ++ " " ++ monthAbbr d.month ++ " "
    ++ toString d.year

/-! ## Exceptions and condition records -/

/-- The Python exceptions that can escape the rule-evaluation code:
`KeyError` from a missing dict key in `_match_rule`, and
`AttributeError` from calling `.replace` on a non-string `value` in the
`month` branch (or `.get` on a `None` action). -/
inductive PyErr where
  | keyError (k : String)
  | attrError
deriving Repr, DecidableEq

/-- A raw condition record from the rules file: a dict that may lack any
of the keys `field`, `condition`, `value` (a missing key raises
`KeyError` when `_match_rule` subscripts it). -/
structure CondRecord where
  fieldKey : Option String
  conditionKey : Option String
  valueKey : Option PyStrVal
deriving Repr, DecidableEq

/-- Convenience constructor for a fully keyed condition record. -/
def mkCond (f c : String) (v : PyStrVal) : CondRecord := ⟨some f, some c, some v⟩

/-! ## `_match_string_condition` (lines 49-75) -/

/-- Embedding of `EmailProcessor._match_string_condition`: evaluate one
string operator against `text` with alternatives `values`. -/
def matchStringCondition (condition : String) (values : PyStrVal) (text : String) :
    Bool :=
  if text.isEmpty || !values.truthy then false
  else
    let text := pyLower text
    let condition := pyLower condition
    let vals := values.toList
    if condition = "contains" then vals.any (fun v => pyContains text (pyLower v))
    else if condition = "startswith" then
      vals.any (fun v => pyStartsWith text (pyLower v))
    else if condition = "endswith" then vals.any (fun v => pyEndsWith text (pyLower v))
    else if condition = "equals" then vals.any (fun v => text = pyLower v)
    else if condition = "noreply" then
      pyContains text "noreply" || pyContains text "no-reply"
    else false

/-! ## The date branch of `_match_rule` (lines 153-175) -/

/-- The `last N` comparison: `email_date >= now - timedelta(days=days)`. -/
def lastNTest (d : PyDateTime) (nowTs : Int) (days : Int) : Bool :=
  decide (d.ts ≥ nowTs - days * secPerDay)

/-- The `older than N` comparison: `email_date <= now - timedelta(days=days)`. -/
def olderThanTest (d : PyDateTime) (nowTs : Int) (days : Int) : Bool :=
  decide (d.ts ≤ nowTs - days * secPerDay)

/-- The `month` comparison:
`email_date.strftime("%B_%Y").lower() == value.replace(" ", "_").lower()`. -/
def monthTest (d : PyDateTime) (value : String) : Bool :=
  pyLower (strftimeBY d) = pyLower (pyReplaceChar value ' ' '_')

/-- The `received date` branch of `_match_rule` (the spec's Date Window
Evaluator).  `condition` arrives already lower-cased by `_match_rule`;
`nowTs` is the instant `datetime.now(timezone.utc)` sampled on entry to
the branch.  `int()` failures (`ValueError`) and missing tokens
(`IndexError`) are caught by the source and resolved to `false`; an
`AttributeError` from `value.replace` on a list value escapes. -/
def matchDateCondition (condition : String) (value : PyStrVal) (d : PyDateTime)
    (nowTs : Int) : Except PyErr Bool :=
  if pyStartsWith condition "last" then
    match (pySplitWs condition)[1]? with
    | none => .ok false
    | some t =>
      match pyInt? t with
      | none => .ok false
      | some days => .ok (lastNTest d nowTs days)
  else if pyStartsWith condition "older than" then
    match (pySplitWs condition)[2]? with
    | none => .ok false
    | some t =>
      match pyInt? t with
      | none => .ok false
      | some days => .ok (olderThanTest d nowTs days)
  else if condition = "month" then
    match value with
    | .str s => .ok (monthTest d s)
    | .listv _ => .error .attrError
  else if condition = "year" then
    .ok (match value with
      | .str s => strftimeY d = s
      | .listv _ => false)
  else if condition = "equals" then
    .ok (match value with
      | .str s => strftimeFull d = s
      | .listv _ => false)
  else .ok false

/-! ## `_match_rule` (lines 144-175) -/

/-- Embedding of `EmailProcessor._match_rule` for one condition record,
with the wall-clock instant `nowTs` that `datetime.now(timezone.utc)`
would return supplied as a parameter (it is only read in the
`received date` branch).  A missing dict key raises `KeyError`. -/
def matchRule (rule : CondRecord) (sender subject : String) (emailDate : PyDateTime)
    (nowTs : Int) : Except PyErr Bool :=
  match rule.fieldKey with
  | none => .error (.keyError "field")
  | some f =>
    match rule.conditionKey with
    | none => .error (.keyError "condition")
    | some c =>
      match rule.valueKey with
      | none => .error (.keyError "value")
      | some value =>
        let field := pyLower f
        let condition := pyLower c
        if field = "from" then .ok (matchStringCondition condition value sender)
        else if field = "subject" then
          .ok (matchStringCondition condition value subject)
        else if field = "received date" then
          matchDateCondition condition value emailDate nowTs
        else .ok false

/-- Whether evaluating this condition record executes
`now = datetime.now(timezone.utc)` (it does exactly when all three keys
are present and the field is `received date`, case-insensitively). -/
def usesClock (rule : CondRecord) : Bool :=
  match rule.fieldKey, rule.conditionKey, rule.valueKey with
  | some f, some _, some _ => pyLower f = "received date"
  | _, _, _ => false

/-- One `_match_rule` call under the ambient clock model: the call reads
clock sample `k` if it reaches the `received date` branch, advancing the
sample index. -/
def matchRuleClocked (clock : Nat → Int) (k : Nat) (rule : CondRecord)
    (sender subject : String) (emailDate : PyDateTime) : Except PyErr Bool × Nat :=
  (matchRule rule sender subject emailDate (clock k),
   if usesClock rule then k + 1 else k)

/-- The condition loop of `process_single_email` (lines 125-128): evaluate
the conditions in order, threading the clock sample index; a `KeyError`
or `AttributeError` aborts the loop and escapes. -/
def evalConds (clock : Nat → Int) (sender subject : String) (emailDate : PyDateTime) :
    List CondRecord → Nat → Except PyErr (List Bool) × Nat
  | [], k => (.ok [], k)
  | c :: cs, k =>
    match matchRuleClocked clock k c sender subject emailDate with
    | (.error e, k') => (.error e, k')
    | (.ok b, k') =>
      match evalConds clock sender subject emailDate cs k' with
      | (.error e, k'') => (.error e, k'')
      | (.ok bs, k'') => (.ok (b :: bs), k'')

/-! ## Actions, label cache and the mailbox mutator trace -/

/-- A rule's `action` dict, as a tagged variant keyed by `type`.
`unknownType` covers any `type` string the dispatcher does not
recognise (the `if` chain then performs nothing). -/
inductive PyAction where
  | markAsRead
  | moveTo (folder : String)
  | archive
  | createLabelAct (label : String)
  | unknownType
deriving Repr, DecidableEq

/-- One Gmail API mutation issued through the service object. -/
inductive MutCall where
  | removeLabel (gmailId labelId : String)
  | addLabel (gmailId labelId : String)
deriving Repr, DecidableEq

/-- The mutable session state touched by the action code: the label
cache (`label_cache`, an uppercased-name → id mapping populated at
startup) plus a trace of the provider calls issued — label creations
(`labels().create`, recorded by the name sent) and message
modifications (`messages().modify`). -/
structure Mailbox where
  cache : List (String × String)
  creates : List String
  modifies : List MutCall
deriving Repr, DecidableEq

/-- Embedding of `EmailProcessor._create_label` (lines 242-257): a cache
hit returns at once; otherwise the label is created through the
provider (modelled by the id assignment `mkId`, always succeeding) and
the cache is extended under the uppercased name. -/
def createLabel (mkId : String → String) (mb : Mailbox) (labelName : String) :
    Mailbox :=
  if ((mb.cache.lookup (pyUpper labelName)).isSome : Bool) then mb
  else
    { mb with
      cache := (pyUpper labelName, mkId labelName) :: mb.cache
      creates := mb.creates ++ [labelName] }

/-- Embedding of `EmailProcessor._apply_label` (lines 217-230): uppercase
the name, create the label on a cache miss, then add the cached label
id to the message (a still-missing id would be a caught `KeyError`,
logged with no modify call). -/
def applyLabel (mkId : String → String) (mb : Mailbox) (gmailId labelName : String) :
    Mailbox :=
  let labelName := pyUpper labelName
  let mb :=
    if ((mb.cache.lookup labelName).isSome : Bool) then mb
    else createLabel mkId mb labelName
  match mb.cache.lookup labelName with
  | some labelId => { mb with modifies := mb.modifies ++ [.addLabel gmailId labelId] }
  | none => mb

/-- The fixed `system_labels` table from `EmailProcessor.__init__`. -/
def systemLabels : List String := ["SPAM", "TRASH", "IMPORTANT", "INBOX"]

/-- Embedding of `EmailProcessor._apply_rule_action` (lines 177-215):
dispatch a matched rule's action to the mutator.  Provider failures are
caught inside the source's `try`, so the embedding is total. -/
def applyRuleAction (mkId : String → String) (mb : Mailbox) (gmailId : String)
    (action : PyAction) : Mailbox :=
  match action with
  | .markAsRead => { mb with modifies := mb.modifies ++ [.removeLabel gmailId "UNREAD"] }
  | .moveTo folder =>
    if pyUpper folder ∈ systemLabels then
      { mb with modifies := mb.modifies ++ [.addLabel gmailId (pyUpper folder)] }
    else applyLabel mkId mb gmailId folder
  | .archive => { mb with modifies := mb.modifies ++ [.removeLabel gmailId "INBOX"] }
  | .createLabelAct label => applyLabel mkId (createLabel mkId mb label) gmailId label
  | .unknownType => mb

/-! ## `process_single_email` (lines 99-142) -/

/-- A rule record: `rule_set.get("predicate", "ANY")`,
`rule_set.get("conditions", [])` and `rule_set.get("action")`, so only
`action` can be `None` at use sites. -/
structure Rule where
  predicateKey : Option String
  conditions : List CondRecord
  actionKey : Option PyAction
deriving Repr, DecidableEq

/-- The predicate combination of line 130:
`all(matches) if predicate == "ALL" else any(matches)`, with
`predicate = rule_set.get("predicate", "ANY").upper()`. -/
def ruleVerdict (predicateKey : Option String) (results : List Bool) : Bool :=
  if pyUpper (predicateKey.getD "ANY") = "ALL" then results.all id
  else results.any id

/-- A normalised email record as produced by `fetch_emails`, with the raw
`date_received` header string. -/
structure EmailRec where
  gmailId : String
  sender : String
  subject : String
  dateReceived : String
deriving Repr, DecidableEq

/-- The rule loop of `process_single_email` (lines 116-142), threading the
mailbox state, the clock sample index, the number of `total_matched`
increments performed so far for this email, and `matched_any_rule`.
A rule with an empty condition list is skipped (`continue`).  An
uncaught exception from condition evaluation (or from
`action.get("type")` on a `None` action) aborts the remaining rules,
keeping the state mutations already performed. -/
def runRules (mkId : String → String) (clock : Nat → Int)
    (gmailId sender subject : String) (emailDate : PyDateTime) :
    List Rule → Mailbox → Nat → Nat → Bool → Mailbox × Nat × Nat × Except PyErr Bool
  | [], mb, k, inc, matchedAny => (mb, k, inc, .ok matchedAny)
  | rule :: rest, mb, k, inc, matchedAny =>
    if rule.conditions.isEmpty then
      runRules mkId clock gmailId sender subject emailDate rest mb k inc matchedAny
    else
      match evalConds clock sender subject emailDate rule.conditions k with
      | (.error e, k') => (mb, k', inc, .error e)
      | (.ok results, k') =>
        if ruleVerdict rule.predicateKey results then
          match rule.actionKey with
          | none => (mb, k', inc, .error .attrError)
          | some action =>
            runRules mkId clock gmailId sender subject emailDate rest
              (applyRuleAction mkId mb gmailId action) k' (inc + 1) true
        else
          runRules mkId clock gmailId sender subject emailDate rest mb k' inc matchedAny

/-- Embedding of `EmailProcessor.process_single_email`: parse the
`date_received` header (the standard-library `parsedate_to_datetime`
plus `astimezone(timezone.utc)` is abstracted as the parameter
`parseDate`); on failure, log and return `False` at once (lines
110-114), evaluating nothing else for this email.  Returns the new
mailbox, clock index, `total_matched` increment, and the outcome
(`.ok matched_any_rule`, or `.error` for an escaping exception). -/
def processSingleEmail (parseDate : String → Option PyDateTime)
    (mkId : String → String) (clock : Nat → Int) (rules : List Rule) (mb : Mailbox)
    (k : Nat) (email : EmailRec) : Mailbox × Nat × Nat × Except PyErr Bool :=
  match parseDate email.dateReceived with
  | none => (mb, k, 0, .ok false)
  | some d =>
    runRules mkId clock email.gmailId email.sender email.subject d rules mb k 0 false

/-! ## `process_emails` (lines 77-97) -/

/-- The per-email loop of `process_emails` (lines 90-94): each email is
processed inside `try/except`, so an escaping exception is logged and
the loop continues with the next email; `total_matched` increments
performed before the exception are kept.  The outcomes are collected in
order as a trace. -/
def processEmailsLoop (parseDate : String → Option PyDateTime)
    (mkId : String → String) (clock : Nat → Int) (rules : List Rule) :
    List EmailRec → Mailbox → Nat → Nat → List (Except PyErr Bool) →
      Mailbox × Nat × Nat × List (Except PyErr Bool)
  | [], mb, k, matched, acc => (mb, k, matched, acc)
  | e :: es, mb, k, matched, acc =>
    match processSingleEmail parseDate mkId clock rules mb k e with
    | (mb', k', inc, res) =>
      processEmailsLoop parseDate mkId clock rules es mb' k' (matched + inc)
        (acc ++ [res])

/-- The aggregate outcome of one processing pass: the reported
`total_processed` and `total_matched` counters, the final mailbox
state, and the trace of per-email outcomes. -/
structure RunResult where
  processed : Nat
  matched : Nat
  mailbox : Mailbox
  outcomes : List (Except PyErr Bool)
deriving Repr

/-- Embedding of `EmailProcessor.process_emails`: `total_processed` is
set to the batch length up front, `total_matched` starts at zero, and
every email is processed under the per-email exception handler, so the
pass always completes and reports both counters. -/
def processEmails (parseDate : String → Option PyDateTime)
    (mkId : String → String) (clock : Nat → Int) (rules : List Rule)
    (emails : List EmailRec) (mb : Mailbox) : RunResult :=
  let out := processEmailsLoop parseDate mkId clock rules emails mb 0 0 []
  { processed := emails.length, matched := out.2.2.1, mailbox := out.1,
    outcomes := out.2.2.2 }

/-! ## Specification-side definitions used by the theorems -/

/-- The evaluator the spec asks for, stated in the spec's words: every
date condition of the pass receives the same explicitly passed `now`. -/
def evalCondsSpecNow (nowTs : Int) (sender subject : String) (d : PyDateTime) :
    List CondRecord → Except PyErr (List Bool)
  | [] => .ok []
  | c :: cs =>
    match matchRule c sender subject d nowTs with
    | .error e => .error e
    | .ok b =>
      match evalCondsSpecNow nowTs sender subject d cs with
      | .error e => .error e
      | .ok bs => .ok (b :: bs)

/-- The boolean a condition record contributes when its evaluation
succeeds (the value under `.ok`). -/
def condBool (sender subject : String) (d : PyDateTime) (nowTs : Int)
    (c : CondRecord) : Bool :=
  (matchRule c sender subject d nowTs).toOption.getD false

/-- Specification-side recomposition of a single (message, rule) match
verdict: a rule matches iff its condition list is non-empty and the
predicate combination of its conditions' results holds. -/
def ruleMatches (sender subject : String) (d : PyDateTime) (nowTs : Int)
    (r : Rule) : Bool :=
  !r.conditions.isEmpty &&
    ruleVerdict r.predicateKey (r.conditions.map (condBool sender subject d nowTs))

/-- The number of rules a single message matches (zero when its date
header does not parse). -/
def emailMatchCount (parseDate : String → Option PyDateTime) (nowTs : Int)
    (rules : List Rule) (e : EmailRec) : Nat :=
  match parseDate e.dateReceived with
  | none => 0
  | some d => rules.countP (ruleMatches e.sender e.subject d nowTs)

/-- The per-email outcome `process_single_email` reports on a
well-formed run: `False` for an unparseable date, else whether any rule
matched. -/
def emailOutcomeSpec (parseDate : String → Option PyDateTime) (nowTs : Int)
    (rules : List Rule) (e : EmailRec) : Except PyErr Bool :=
  .ok (match parseDate e.dateReceived with
    | none => false
    | some d => rules.any (ruleMatches e.sender e.subject d nowTs))

/-- The `KeyError` raised by `_match_rule` for a condition record
missing a key, named after the first key (in subscript order) that is
absent. -/
def missingKeyErr (c : CondRecord) : PyErr :=
  match c.fieldKey with
  | none => .keyError "field"
  | some _ =>
    match c.conditionKey with
    | none => .keyError "condition"
    | some _ => .keyError "value"

/-! ## General lemmas about the embedding -/

/-- An `Except` value whose `toOption` is `some` is an `.ok`. -/
theorem except_toOption_isSome {ε α : Type} (x : Except ε α) :
    x.toOption.isSome = true ↔ ∃ b, x = .ok b := by
  cases x <;> simp [Except.toOption]

/-! ## C5: the `noreply` operator and its (non-)dependence on `values` -/

/-- C5 counterexample: with an empty `values` list the guard
`if not text or not values` fires first, so `noreply` returns `false`
even though the text does contain "noreply" — contradicting the claim
that the result never depends on `values`. -/
theorem noreply_empty_values_counterexample :
    matchStringCondition "noreply" (PyStrVal.listv []) "noreply@x.com" = false ∧
    pyContains (pyLower "noreply@x.com") "noreply" = true := by
  exact ⟨rfl, rfl⟩

/-- C5 amended: for truthy (non-empty) `values` and non-empty `text`,
the `noreply` operator ignores the contents of `values`: it returns
`true` iff the lower-cased text contains "noreply" or "no-reply".
With empty `text` or falsy `values` it returns `false`. -/
theorem noreply_ignores_value_contents (values : PyStrVal) (text : String)
    (hv : values.truthy = true) (ht : text.isEmpty = false) :
    matchStringCondition "noreply" values text =
      (pyContains (pyLower text) "noreply" || pyContains (pyLower text) "no-reply") := by
  unfold matchStringCondition
  rw [ht, hv]
  rfl

/-- C5 amended, witness: the spec's own example inputs. -/
theorem noreply_ignores_value_contents_witness :
    (PyStrVal.listv ["whatever"]).truthy = true ∧
    ("NoReply@x.com" : String).isEmpty = false ∧
    matchStringCondition "noreply" (PyStrVal.listv ["whatever"]) "NoReply@x.com" =
      (pyContains (pyLower "NoReply@x.com") "noreply" ||
        pyContains (pyLower "NoReply@x.com") "no-reply") ∧
    matchStringCondition "noreply" (PyStrVal.listv ["whatever"]) "NoReply@x.com" = true ∧
    matchStringCondition "noreply" (PyStrVal.str "x") "hello@x.com" = false :=
  ⟨rfl, rfl, noreply_ignores_value_contents (PyStrVal.listv ["whatever"]) "NoReply@x.com"
      rfl rfl, rfl, rfl⟩

/-! ## C4: how the date operators are dispatched -/

/-- If a string's character list is known, a failing list-level check
transfers to `pyStartsWith`. -/
theorem pyStartsWith_eq_false_of_data {c : String} {l : List Char} (hc : c.data = l)
    (p : String) (h : p.data.isPrefixOf l = false) : pyStartsWith c p = false := by
  unfold pyStartsWith; rw [hc]; exact h

/-- Two strings whose known character lists start with different
characters are different. -/
theorem string_ne_of_head_ne {c : String} {a : Char} {t : List Char}
    (hc : c.data = a :: t) (s : String) (b : Char) (ts : List Char)
    (hs : s.data = b :: ts) (hab : a ≠ b) : c ≠ s := by
  intro h
  rw [h, hs] at hc
  exact hab (List.cons.inj hc).1.symm

/-- C4 counterexample: the operator "monthly" lower-cases to a string
beginning with "month", yet the evaluator returns `false` where the
month+year comparison would return `true` — the `month`, `year` and
`equals` operators are compared for equality, not by prefix. -/
theorem month_operator_not_prefix_matched :
    pyStartsWith (pyLower "monthly") "month" = true ∧
    matchDateCondition "monthly" (PyStrVal.str "March 2024") ⟨1711000000, 2024, 3, 21, 3⟩ 0
      = .ok false ∧
    matchDateCondition "month" (PyStrVal.str "March 2024") ⟨1711000000, 2024, 3, 21, 3⟩ 0
      = .ok true := by
  exact ⟨rfl, rfl, rfl⟩

/-- C4 amended: `last` and `older than` are dispatched by string-prefix
match on the lower-cased operator (the lower-casing is performed by
`_match_rule` before dispatch), but `month`, `year` and `equals` are
dispatched by exact equality: an operator that merely begins with one
of those three names, without being equal to it, evaluates to `false`,
while the exact operators apply the corresponding comparisons. -/
theorem date_operator_dispatch (c : String) (v : PyStrVal) (d : PyDateTime) (n : Int) :
    (pyStartsWith c "month" = true → c ≠ "month" → matchDateCondition c v d n = .ok false) ∧
    (pyStartsWith c "year" = true → c ≠ "year" → matchDateCondition c v d n = .ok false) ∧
    (pyStartsWith c "equals" = true → c ≠ "equals" →
      matchDateCondition c v d n = .ok false) ∧
    (∀ s, matchDateCondition "month" (PyStrVal.str s) d n = .ok (monthTest d s)) ∧
    (∀ s, matchDateCondition "year" (PyStrVal.str s) d n = .ok (strftimeY d = s)) ∧
    (∀ s, matchDateCondition "equals" (PyStrVal.str s) d n = .ok (strftimeFull d = s)) := by
  refine ⟨?_, ?_, ?_, fun s => rfl, fun s => rfl, fun s => rfl⟩
  · intro h1 h2
    unfold pyStartsWith at h1
    obtain ⟨t, ht⟩ := List.isPrefixOf_iff_prefix.mp h1
    have hc : c.data = 'm' :: 'o' :: 'n' :: 't' :: 'h' :: t := ht.symm
    have hl : pyStartsWith c "last" = false := pyStartsWith_eq_false_of_data hc "last" rfl
    have ho : pyStartsWith c "older than" = false :=
      pyStartsWith_eq_false_of_data hc "older than" rfl
    have hy : c ≠ "year" := string_ne_of_head_ne hc "year" 'y' ['e', 'a', 'r'] rfl
      (by decide)
    have he : c ≠ "equals" := string_ne_of_head_ne hc "equals" 'e'
      ['q', 'u', 'a', 'l', 's'] rfl (by decide)
    unfold matchDateCondition
    rw [if_neg (by simp [hl]), if_neg (by simp [ho]), if_neg h2, if_neg hy, if_neg he]
  · intro h1 h2
    unfold pyStartsWith at h1
    obtain ⟨t, ht⟩ := List.isPrefixOf_iff_prefix.mp h1
    have hc : c.data = 'y' :: 'e' :: 'a' :: 'r' :: t := ht.symm
    have hl : pyStartsWith c "last" = false := pyStartsWith_eq_false_of_data hc "last" rfl
    have ho : pyStartsWith c "older than" = false :=
      pyStartsWith_eq_false_of_data hc "older than" rfl
    have hm : c ≠ "month" := string_ne_of_head_ne hc "month" 'm'
      ['o', 'n', 't', 'h'] rfl (by decide)
    have he : c ≠ "equals" := string_ne_of_head_ne hc "equals" 'e'
      ['q', 'u', 'a', 'l', 's'] rfl (by decide)
    unfold matchDateCondition
    rw [if_neg (by simp [hl]), if_neg (by simp [ho]), if_neg hm, if_neg h2, if_neg he]
  · intro h1 h2
    unfold pyStartsWith at h1
    obtain ⟨t, ht⟩ := List.isPrefixOf_iff_prefix.mp h1
    have hc : c.data = 'e' :: 'q' :: 'u' :: 'a' :: 'l' :: 's' :: t := ht.symm
    have hl : pyStartsWith c "last" = false := pyStartsWith_eq_false_of_data hc "last" rfl
    have ho : pyStartsWith c "older than" = false :=
      pyStartsWith_eq_false_of_data hc "older than" rfl
    have hm : c ≠ "month" := string_ne_of_head_ne hc "month" 'm'
      ['o', 'n', 't', 'h'] rfl (by decide)
    have hy : c ≠ "year" := string_ne_of_head_ne hc "year" 'y' ['e', 'a', 'r'] rfl
      (by decide)
    unfold matchDateCondition
    rw [if_neg (by simp [hl]), if_neg (by simp [ho]), if_neg hm, if_neg hy, if_neg h2]

/-- C4 amended, witness: concrete operators from the amended statement,
with a March 2024 date. -/
theorem date_operator_dispatch_witness :
    pyStartsWith "monthly" "month" = true ∧ ("monthly" : String) ≠ "month" ∧
    matchDateCondition "monthly" (PyStrVal.str "March 2024") ⟨1711000000, 2024, 3, 21, 3⟩ 7
      = .ok false ∧
    matchDateCondition "yearly" (PyStrVal.str "2024") ⟨1711000000, 2024, 3, 21, 3⟩ 7
      = .ok false ∧
    monthTest ⟨1711000000, 2024, 3, 21, 3⟩ "March 2024" = true :=
  ⟨rfl, by decide,
    (date_operator_dispatch "monthly" (PyStrVal.str "March 2024")
        ⟨1711000000, 2024, 3, 21, 3⟩ 7).1 rfl (by decide),
    (date_operator_dispatch "yearly" (PyStrVal.str "2024")
        ⟨1711000000, 2024, 3, 21, 3⟩ 7).2.1 rfl (by decide),
    rfl⟩

/-! ## C6: combining condition results with the rule predicate -/

/-- C6: the verdict used by `process_single_email` (line 130) is the
conjunction of the condition results when the uppercased predicate is
"ALL" and their disjunction otherwise; an absent predicate defaults to
"ANY" and any string not uppercasing to "ALL" (including invalid ones)
falls into the disjunction branch. -/
theorem predicate_combination (p : Option String) (results : List Bool) :
    (ruleVerdict p results = true ↔
      (if pyUpper (p.getD "ANY") = "ALL" then ∀ b ∈ results, b = true
       else ∃ b ∈ results, b = true)) ∧
    (p = none → ruleVerdict p results = results.any id) ∧
    (∀ s, p = some s → pyUpper s ≠ "ALL" → ruleVerdict p results = results.any id) ∧
    (∀ s, p = some s → pyUpper s = "ALL" → ruleVerdict p results = results.all id) := by
  refine ⟨?_, ?_, ?_, ?_⟩
  · unfold ruleVerdict
    split
    · simp [List.all_eq_true]
    · simp [List.any_eq_true]
  · intro hp
    subst hp
    unfold ruleVerdict
    rw [if_neg (by decide)]
  · intro s hp hs
    subst hp
    unfold ruleVerdict
    rw [if_neg (by simpa using hs)]
  · intro s hp hs
    subst hp
    unfold ruleVerdict
    rw [if_pos (by simpa using hs)]

/-- C6 witness: the spec's example — predicate ALL over [true, false]
does not match, ANY (and an absent or invalid predicate) does. -/
theorem predicate_combination_witness :
    ruleVerdict (some "ALL") [true, false] = false ∧
    ruleVerdict (some "any") [true, false] = true ∧
    ruleVerdict none [true, false] = true ∧
    ruleVerdict (some "bogus") [true, false] = true := by
  refine ⟨?_, ?_, ?_, ?_⟩
  · rw [(predicate_combination (some "ALL") [true, false]).2.2.2 "ALL" rfl rfl]
    rfl
  · rw [(predicate_combination (some "any") [true, false]).2.2.1 "any" rfl (by decide)]
    rfl
  · rw [(predicate_combination none [true, false]).2.1 rfl]
    rfl
  · rw [(predicate_combination (some "bogus") [true, false]).2.2.1 "bogus" rfl (by decide)]
    rfl

/-! ## C7: idempotent label creation through the cache -/

/-- A cache hit makes `_create_label` a no-op. -/
theorem createLabel_cache_hit (mkId : String → String) (mb : Mailbox) (n : String)
    (h : (mb.cache.lookup (pyUpper n)).isSome = true) : createLabel mkId mb n = mb := by
  unfold createLabel
  rw [if_pos h]

/-- After `_create_label`, the uppercased name is always in the cache. -/
theorem lookup_after_createLabel (mkId : String → String) (mb : Mailbox) (n : String) :
    (((createLabel mkId mb n).cache.lookup (pyUpper n)).isSome : Bool) = true := by
  unfold createLabel
  split
  · assumption
  · simp [List.lookup]

/-- A cache hit makes `_apply_label` issue only the message
modification: cache and creation trace are untouched. -/
theorem applyLabel_cache_hit (mkId : String → String) (mb : Mailbox) (g n : String)
    (h : (mb.cache.lookup (pyUpper n)).isSome = true) :
    (applyLabel mkId mb g n).cache = mb.cache ∧
    (applyLabel mkId mb g n).creates = mb.creates := by
  obtain ⟨lid, hid⟩ := Option.isSome_iff_exists.mp h
  simp only [applyLabel]
  rw [if_pos h, hid]
  exact ⟨rfl, rfl⟩

/-- One `_create_label` call extends the creation trace by at most one
entry. -/
theorem createLabel_creates_le (mkId : String → String) (mb : Mailbox) (n : String) :
    (createLabel mkId mb n).creates.length ≤ mb.creates.length + 1 := by
  unfold createLabel
  split
  · exact Nat.le_succ _
  · simp

/-- C7: label creation is idempotent across a run — a name already in
the cache (uppercased) is never recreated by `_create_label` or
`_apply_label`, and applying the `CreateLabel` action twice for the
same name (in any letter case) issues at most one provider create, the
second application leaving the creation trace unchanged. -/
theorem label_creation_idempotent (mkId : String → String) (mb : Mailbox)
    (g g' n n' : String) (hcase : pyUpper n' = pyUpper n) :
    (∀ mb₀ : Mailbox, (mb₀.cache.lookup (pyUpper n')).isSome = true →
      createLabel mkId mb₀ n' = mb₀ ∧ (applyLabel mkId mb₀ g' n').creates = mb₀.creates) ∧
    (applyRuleAction mkId (applyRuleAction mkId mb g (.createLabelAct n)) g'
        (.createLabelAct n')).creates
      = (applyRuleAction mkId mb g (.createLabelAct n)).creates ∧
    (applyRuleAction mkId (applyRuleAction mkId mb g (.createLabelAct n)) g'
        (.createLabelAct n')).creates.length ≤ mb.creates.length + 1 := by
  have h1 := lookup_after_createLabel mkId mb n
  have h2 := applyLabel_cache_hit mkId (createLabel mkId mb n) g n h1
  have hmb1c : (applyRuleAction mkId mb g (.createLabelAct n)).cache
      = (createLabel mkId mb n).cache := h2.1
  have hmb1cr : (applyRuleAction mkId mb g (.createLabelAct n)).creates
      = (createLabel mkId mb n).creates := h2.2
  have hlook1 : (((applyRuleAction mkId mb g (.createLabelAct n)).cache.lookup
      (pyUpper n')).isSome : Bool) = true := by
    rw [hcase, hmb1c]; exact h1
  have hcl : createLabel mkId (applyRuleAction mkId mb g (.createLabelAct n)) n'
      = applyRuleAction mkId mb g (.createLabelAct n) :=
    createLabel_cache_hit _ _ _ hlook1
  have hsecond : (applyRuleAction mkId (applyRuleAction mkId mb g (.createLabelAct n)) g'
      (.createLabelAct n')).creates = (applyRuleAction mkId mb g (.createLabelAct n)).creates := by
    show (applyLabel mkId (createLabel mkId (applyRuleAction mkId mb g (.createLabelAct n)) n')
      g' n').creates = _
    rw [hcl]
    exact (applyLabel_cache_hit mkId _ g' n' hlook1).2
  refine ⟨fun mb₀ h0 => ⟨createLabel_cache_hit mkId mb₀ n' h0,
    (applyLabel_cache_hit mkId mb₀ g' n' h0).2⟩, hsecond, ?_⟩
  rw [hsecond, hmb1cr]
  exact createLabel_creates_le mkId mb n

/-- C7 witness: applying `CreateLabel("Work")` then `CreateLabel("work")`
to an empty cache creates the label exactly once. -/
theorem label_creation_idempotent_witness :
    pyUpper "work" = pyUpper "Work" ∧
    (applyRuleAction (fun s => "id_" ++ s)
        (applyRuleAction (fun s => "id_" ++ s) ⟨[], [], []⟩ "g1" (.createLabelAct "Work"))
        "g2" (.createLabelAct "work")).creates = ["Work"] := by
  refine ⟨rfl, ?_⟩
  rw [(label_creation_idempotent (fun s => "id_" ++ s) ⟨[], [], []⟩ "g1" "g2" "Work" "work"
    rfl).2.1]
  rfl

/-! ## C8: the `last N` date window -/

/-- C8: for an operator starting with "last", the evaluator parses the
token after "last"; on success it returns exactly the comparison
`email_time >= now - N days`, and a missing or non-integer token yields
`false` rather than an error. -/
theorem last_n_days_window (c t : String) (v : PyStrVal) (d : PyDateTime)
    (nowTs days : Int) (hpre : pyStartsWith c "last" = true) :
    ((pySplitWs c)[1]? = some t → pyInt? t = some days →
      matchDateCondition c v d nowTs = .ok (lastNTest d nowTs days)) ∧
    (lastNTest d nowTs days = true ↔ d.ts ≥ nowTs - days * secPerDay) ∧
    ((pySplitWs c)[1]? = none → matchDateCondition c v d nowTs = .ok false) ∧
    (∀ t', (pySplitWs c)[1]? = some t' → pyInt? t' = none →
      matchDateCondition c v d nowTs = .ok false) := by
  refine ⟨?_, ?_, ?_, ?_⟩
  · intro h1 h2
    unfold matchDateCondition
    rw [if_pos hpre, h1]
    simp only [h2]
  · simp [lastNTest]
  · intro h1
    unfold matchDateCondition
    rw [if_pos hpre, h1]
  · intro t' h1 h2
    unfold matchDateCondition
    rw [if_pos hpre, h1]
    simp only [h2]

/-- C8 witness: the spec's test vectors with `now = 1000000`: an email
3 days old passes "last 7", one 10 days old does not, and a malformed
count yields `false`. -/
theorem last_n_days_window_witness :
    pyStartsWith "last 7" "last" = true ∧
    (pySplitWs "last 7")[1]? = some "7" ∧
    pyInt? "7" = some 7 ∧
    matchDateCondition "last 7" (PyStrVal.str "") ⟨740800, 2024, 1, 9, 0⟩ 1000000
      = .ok true ∧
    matchDateCondition "last 7" (PyStrVal.str "") ⟨136000, 2024, 1, 2, 0⟩ 1000000
      = .ok false ∧
    matchDateCondition "last x" (PyStrVal.str "") ⟨740800, 2024, 1, 9, 0⟩ 1000000
      = .ok false := by
  refine ⟨rfl, rfl, rfl, ?_, ?_, ?_⟩
  · rw [(last_n_days_window "last 7" "7" (PyStrVal.str "") ⟨740800, 2024, 1, 9, 0⟩
      1000000 7 rfl).1 rfl rfl]
    rfl
  · rw [(last_n_days_window "last 7" "7" (PyStrVal.str "") ⟨136000, 2024, 1, 2, 0⟩
      1000000 7 rfl).1 rfl rfl]
    rfl
  · exact (last_n_days_window "last x" "x" (PyStrVal.str "") ⟨740800, 2024, 1, 9, 0⟩
      1000000 0 rfl).2.2.2 "x" rfl rfl

/-! ## C9: a rule with no conditions is skipped -/

/-- C9: a rule whose condition list is empty is skipped by the rule
loop: running the loop with that rule inserted anywhere gives exactly
the same mailbox, clock index, matched count and outcome as running it
without the rule — it never matches, fires no action, and does not
increment the matched count; likewise for a whole
`process_single_email` run. -/
theorem empty_rule_skipped (r : Rule) (hr : r.conditions = []) :
    (∀ (mkId : String → String) (clock : Nat → Int) (gid sender subject : String)
        (d : PyDateTime) (pre post : List Rule) (mb : Mailbox) (k inc : Nat) (any : Bool),
      runRules mkId clock gid sender subject d (pre ++ r :: post) mb k inc any =
        runRules mkId clock gid sender subject d (pre ++ post) mb k inc any) ∧
    (∀ (parseDate : String → Option PyDateTime) (mkId : String → String)
        (clock : Nat → Int) (pre post : List Rule) (mb : Mailbox) (k : Nat) (e : EmailRec),
      processSingleEmail parseDate mkId clock (pre ++ r :: post) mb k e =
        processSingleEmail parseDate mkId clock (pre ++ post) mb k e) := by
  have main : ∀ (mkId : String → String) (clock : Nat → Int)
      (gid sender subject : String) (d : PyDateTime) (pre post : List Rule)
      (mb : Mailbox) (k inc : Nat) (any : Bool),
      runRules mkId clock gid sender subject d (pre ++ r :: post) mb k inc any =
        runRules mkId clock gid sender subject d (pre ++ post) mb k inc any := by
    intro mkId clock gid sender subject d pre post
    induction pre with
    | nil =>
      intro mb k inc any
      simp [runRules, hr]
    | cons a pre ih =>
      intro mb k inc any
      simp only [List.cons_append, runRules]
      split
      · exact ih mb k inc any
      · split
        · rfl
        · split
          · split
            · rfl
            · exact ih _ _ _ _
          · exact ih _ _ _ _
  refine ⟨main, ?_⟩
  intro parseDate mkId clock pre post mb k e
  unfold processSingleEmail
  cases hpd : parseDate e.dateReceived with
  | none => rfl
  | some d => exact main mkId clock e.gmailId e.sender e.subject d pre post mb k 0 false

/-- C9 witness: a rule with zero conditions among two others changes
nothing about the run. -/
theorem empty_rule_skipped_witness :
    (Rule.mk (some "ALL") [] (some .markAsRead)).conditions = [] ∧
    processSingleEmail (fun _ => some ⟨740800, 2024, 1, 9, 0⟩) (fun s => s) (fun _ => 0)
        ([⟨some "ANY", [mkCond "From" "contains" (.listv ["news"])], some .archive⟩] ++
          Rule.mk (some "ALL") [] (some .markAsRead) ::
            [⟨some "ANY", [mkCond "Subject" "equals" (.listv ["update"])], some .markAsRead⟩])
        ⟨[], [], []⟩ 0 ⟨"id1", "news@newsletter.com", "Update", "d"⟩ =
      processSingleEmail (fun _ => some ⟨740800, 2024, 1, 9, 0⟩) (fun s => s) (fun _ => 0)
        ([⟨some "ANY", [mkCond "From" "contains" (.listv ["news"])], some .archive⟩] ++
          [⟨some "ANY", [mkCond "Subject" "equals" (.listv ["update"])], some .markAsRead⟩])
        ⟨[], [], []⟩ 0 ⟨"id1", "news@newsletter.com", "Update", "d"⟩ :=
  ⟨rfl,
    (empty_rule_skipped (Rule.mk (some "ALL") [] (some .markAsRead)) rfl).2
      (fun _ => some ⟨740800, 2024, 1, 9, 0⟩) (fun s => s) (fun _ => 0)
      [⟨some "ANY", [mkCond "From" "contains" (.listv ["news"])], some .archive⟩]
      [⟨some "ANY", [mkCond "Subject" "equals" (.listv ["update"])], some .markAsRead⟩]
      ⟨[], [], []⟩ 0 ⟨"id1", "news@newsletter.com", "Update", "d"⟩⟩

/-! ## C3: when is "now" sampled? -/

/-- C3 counterexample: `_match_rule` executes
`now = datetime.now(timezone.utc)` on every call, so two evaluations of
the same `received date` condition against the same message in the
same pass can disagree.  With clock samples 5 then 15 and an email at
instant 10, the condition "last 0" evaluates to `true` and then
`false`; under an ALL rule the pass records no match, whereas a single
shared "now" of 5 records a match and fires the action. -/
theorem now_resampled_counterexample :
    evalConds (fun k => if k = 0 then 5 else 15) "s" "t" ⟨10, 2024, 1, 1, 0⟩
        [mkCond "Received Date" "last 0" (.str ""),
          mkCond "Received Date" "last 0" (.str "")] 0
      = (.ok [true, false], 2) ∧
    processSingleEmail (fun _ => some ⟨10, 2024, 1, 1, 0⟩) (fun s => s)
        (fun k => if k = 0 then 5 else 15)
        [⟨some "ALL", [mkCond "Received Date" "last 0" (.str ""),
          mkCond "Received Date" "last 0" (.str "")], some .markAsRead⟩]
        ⟨[], [], []⟩ 0 ⟨"g", "s", "t", "raw"⟩
      = (⟨[], [], []⟩, 2, 0, .ok false) ∧
    processSingleEmail (fun _ => some ⟨10, 2024, 1, 1, 0⟩) (fun s => s) (fun _ => 5)
        [⟨some "ALL", [mkCond "Received Date" "last 0" (.str ""),
          mkCond "Received Date" "last 0" (.str "")], some .markAsRead⟩]
        ⟨[], [], []⟩ 0 ⟨"g", "s", "t", "raw"⟩
      = (⟨[], [], [.removeLabel "g" "UNREAD"]⟩, 2, 1, .ok true) := by
  exact ⟨rfl, rfl, rfl⟩


/-- C3 amended: the code re-samples the wall clock on each
`received date` condition evaluation rather than capturing it once per
run; consequently all evaluations in a pass agree on "now" only when
the clock does not advance during the pass, in which case the clocked
evaluation coincides with the spec's explicit single-`now` evaluator. -/
theorem constant_clock_matches_explicit_now (n0 : Int) (sender subject : String)
    (d : PyDateTime) (conds : List CondRecord) (k : Nat) :
    (evalConds (fun _ => n0) sender subject d conds k).1 =
      evalCondsSpecNow n0 sender subject d conds := by
  induction conds generalizing k with
  | nil => rfl
  | cons c cs ih =>
    have ih2 := ih (if usesClock c then k + 1 else k)
    rcases hev : evalConds (fun _ => n0) sender subject d cs
      (if usesClock c then k + 1 else k) with ⟨res, k2⟩
    rw [hev] at ih2
    cases hm : matchRule c sender subject d n0 with
    | error e => simp only [evalConds, evalCondsSpecNow, matchRuleClocked, hm]
    | ok b =>
      simp only [evalConds, evalCondsSpecNow, matchRuleClocked, hm, hev]
      rw [← ih2]
      cases res <;> rfl

/-! ## C1: what happens when the date header does not parse -/

/-- C1 counterexample: for a message whose `received_at` header does not
parse, `process_single_email` returns `false` at once (lines 110-114),
so even a From condition that needs no date — and would match — is
never evaluated: no rule fires and the matched count stays 0,
contradicting the claim that only date conditions fail while the
remaining conditions and rules are still evaluated. -/
theorem date_parse_failure_counterexample :
    matchStringCondition "contains" (.listv ["newsletter"]) "news@newsletter.com" = true ∧
    processSingleEmail (fun _ => none) (fun s => s) (fun _ => 0)
        [⟨some "ANY", [mkCond "From" "contains" (.listv ["newsletter"])], some .archive⟩]
        ⟨[], [], []⟩ 0 ⟨"id1", "news@newsletter.com", "Update", "not-a-date"⟩
      = (⟨[], [], []⟩, 0, 0, .ok false) := by
  exact ⟨rfl, rfl⟩

/-- C1 amended: when the `received_at` header cannot be parsed, the
message is skipped entirely — `process_single_email` logs and returns
`false` without evaluating any condition or rule and without touching
the mailbox, the matched count or the clock — but the run is not
aborted: the loop records the outcome and continues with the remaining
messages. -/
theorem date_parse_failure_skips_message (parseDate : String → Option PyDateTime)
    (mkId : String → String) (clock : Nat → Int) (rules : List Rule) (mb : Mailbox)
    (k : Nat) (e : EmailRec) (h : parseDate e.dateReceived = none) :
    processSingleEmail parseDate mkId clock rules mb k e = (mb, k, 0, .ok false) ∧
    ∀ (post : List EmailRec) (m : Nat) (acc : List (Except PyErr Bool)),
      processEmailsLoop parseDate mkId clock rules (e :: post) mb k m acc =
        processEmailsLoop parseDate mkId clock rules post mb k m (acc ++ [.ok false]) := by
  have h1 : processSingleEmail parseDate mkId clock rules mb k e = (mb, k, 0, .ok false) := by
    unfold processSingleEmail
    rw [h]
  refine ⟨h1, ?_⟩
  intro post m acc
  conv_lhs => rw [processEmailsLoop]
  rw [h1]
  simp

/-- C1 amended, witness: a batch with an unparseable first message still
processes the second message. -/
theorem date_parse_failure_skips_message_witness :
    (fun s => if s = "bad" then none else some (⟨740800, 2024, 1, 9, 0⟩ : PyDateTime))
        ((⟨"b1", "a@x.com", "hi", "bad"⟩ : EmailRec)).dateReceived = none ∧
    processEmailsLoop
        (fun s => if s = "bad" then none else some ⟨740800, 2024, 1, 9, 0⟩)
        (fun s => s) (fun _ => 0) [] [⟨"b1", "a@x.com", "hi", "bad"⟩, ⟨"b2", "c@x.com", "yo", "ok"⟩]
        ⟨[], [], []⟩ 0 0 [] =
      processEmailsLoop
        (fun s => if s = "bad" then none else some ⟨740800, 2024, 1, 9, 0⟩)
        (fun s => s) (fun _ => 0) [] [⟨"b2", "c@x.com", "yo", "ok"⟩]
        ⟨[], [], []⟩ 0 0 [.ok false] := by
  refine ⟨rfl, ?_⟩
  exact (date_parse_failure_skips_message
    (fun s => if s = "bad" then none else some ⟨740800, 2024, 1, 9, 0⟩)
    (fun s => s) (fun _ => 0) [] ⟨[], [], []⟩ 0 ⟨"b1", "a@x.com", "hi", "bad"⟩ rfl).2
    [⟨"b2", "c@x.com", "yo", "ok"⟩] 0 []

/-! ## C2: the pass completes and reports exact counts -/


/-- When every condition of a list evaluates without an exception, the
condition loop returns exactly the list of their booleans. -/
theorem evalConds_ok (sender subject : String) (d : PyDateTime) (n0 : Int)
    (conds : List CondRecord) :
    ∀ k : Nat,
      (∀ c ∈ conds, ((matchRule c sender subject d n0).toOption.isSome : Bool) = true) →
      ∃ k', evalConds (fun _ => n0) sender subject d conds k
        = (.ok (conds.map (condBool sender subject d n0)), k') := by
  induction conds with
  | nil => exact fun k _ => ⟨k, rfl⟩
  | cons c cs ih =>
    intro k h
    obtain ⟨b, hb⟩ := (except_toOption_isSome _).mp (h c (List.mem_cons_self c cs))
    obtain ⟨k', hk'⟩ := ih (if usesClock c then k + 1 else k)
      (fun c' hc' => h c' (List.mem_cons_of_mem c hc'))
    refine ⟨k', ?_⟩
    simp only [evalConds, matchRuleClocked, hb, hk', List.map_cons]
    simp [condBool, hb, Except.toOption]

/-- When every condition of every rule evaluates without an exception
and every rule carries an action, the rule loop terminates normally,
adds exactly one matched-count increment per matching rule — checking
every rule, with no early termination after a match — and reports
whether any rule matched. -/
theorem runRules_ok (mkId : String → String) (n0 : Int) (gid sender subject : String)
    (d : PyDateTime) (rules : List Rule) :
    ∀ (mb : Mailbox) (k inc : Nat) (any : Bool),
      (∀ r ∈ rules, ∀ c ∈ r.conditions,
        ((matchRule c sender subject d n0).toOption.isSome : Bool) = true) →
      (∀ r ∈ rules, r.actionKey.isSome = true) →
      ∃ mb' k', runRules mkId (fun _ => n0) gid sender subject d rules mb k inc any
        = (mb', k', inc + rules.countP (ruleMatches sender subject d n0),
            .ok (any || rules.any (ruleMatches sender subject d n0))) := by
  induction rules with
  | nil =>
    intro mb k inc any _ _
    exact ⟨mb, k, by simp [runRules]⟩
  | cons r rest ih =>
    intro mb k inc any hconds hacts
    by_cases hemp : r.conditions.isEmpty = true
    · obtain ⟨mb', k', hrec⟩ := ih mb k inc any
        (fun r' hr' => hconds r' (List.mem_cons_of_mem r hr'))
        (fun r' hr' => hacts r' (List.mem_cons_of_mem r hr'))
      refine ⟨mb', k', ?_⟩
      have hm : ruleMatches sender subject d n0 r = false := by
        simp [ruleMatches, hemp]
      simp only [runRules, hemp, if_true, hrec, List.countP_cons, List.any_cons, hm]
      simp
    · have hemp' : r.conditions.isEmpty = false := by
        simpa using hemp
      obtain ⟨k2, hev⟩ := evalConds_ok sender subject d n0 r.conditions k
        (hconds r (List.mem_cons_self r rest))
      have hm : ruleMatches sender subject d n0 r
          = ruleVerdict r.predicateKey
              (r.conditions.map (condBool sender subject d n0)) := by
        simp [ruleMatches, hemp']
      by_cases hv : ruleVerdict r.predicateKey
          (r.conditions.map (condBool sender subject d n0)) = true
      · obtain ⟨a, ha⟩ := Option.isSome_iff_exists.mp (hacts r (List.mem_cons_self r rest))
        obtain ⟨mb', k', hrec⟩ := ih (applyRuleAction mkId mb gid a) k2 (inc + 1) true
          (fun r' hr' => hconds r' (List.mem_cons_of_mem r hr'))
          (fun r' hr' => hacts r' (List.mem_cons_of_mem r hr'))
        refine ⟨mb', k', ?_⟩
        simp only [runRules, hemp', Bool.false_eq_true, if_false, hev, hv, if_true, ha,
          hrec, List.countP_cons, List.any_cons, hm]
        simp only [Prod.mk.injEq]
        refine ⟨trivial, trivial, by omega, by simp⟩
      · have hv' : ruleVerdict r.predicateKey
            (r.conditions.map (condBool sender subject d n0)) = false := by
          simpa using hv
        obtain ⟨mb', k', hrec⟩ := ih mb k2 inc any
          (fun r' hr' => hconds r' (List.mem_cons_of_mem r hr'))
          (fun r' hr' => hacts r' (List.mem_cons_of_mem r hr'))
        refine ⟨mb', k', ?_⟩
        simp only [runRules, hemp', Bool.false_eq_true, if_false, hev, hv', hrec,
          List.countP_cons, List.any_cons, hm]
        simp

/-- The per-email loop under the same well-formedness assumptions:
every message contributes its own match count and an `.ok` outcome. -/
theorem processEmailsLoop_counts (parseDate : String → Option PyDateTime)
    (mkId : String → String) (n0 : Int) (rules : List Rule) :
    ∀ (emails : List EmailRec) (mb : Mailbox) (k m : Nat)
      (acc : List (Except PyErr Bool)),
      (∀ e ∈ emails, ∀ d, parseDate e.dateReceived = some d →
        ∀ r ∈ rules, ∀ c ∈ r.conditions,
          ((matchRule c e.sender e.subject d n0).toOption.isSome : Bool) = true) →
      (∀ r ∈ rules, r.actionKey.isSome = true) →
      ∃ mb' k', processEmailsLoop parseDate mkId (fun _ => n0) rules emails mb k m acc
        = (mb', k', m + (emails.map (emailMatchCount parseDate n0 rules)).sum,
            acc ++ emails.map (emailOutcomeSpec parseDate n0 rules)) := by
  intro emails
  induction emails with
  | nil =>
    intro mb k m acc _ _
    exact ⟨mb, k, by simp [processEmailsLoop]⟩
  | cons e es ih =>
    intro mb k m acc hconds hacts
    cases hpd : parseDate e.dateReceived with
    | none =>
      have hps : processSingleEmail parseDate mkId (fun _ => n0) rules mb k e
          = (mb, k, 0, .ok false) := by
        unfold processSingleEmail; rw [hpd]
      obtain ⟨mb', k', hrec⟩ := ih mb k (m + 0) (acc ++ [.ok false])
        (fun e' he' => hconds e' (List.mem_cons_of_mem e he')) hacts
      refine ⟨mb', k', ?_⟩
      simp only [processEmailsLoop, hps, hrec]
      simp [emailMatchCount, emailOutcomeSpec, hpd]
    | some d =>
      obtain ⟨mb1, k1, hrun⟩ := runRules_ok mkId n0 e.gmailId e.sender e.subject d rules
        mb k 0 false
        (fun r hr c hc => hconds e (List.mem_cons_self e es) d hpd r hr c hc) hacts
      have hps : processSingleEmail parseDate mkId (fun _ => n0) rules mb k e
          = (mb1, k1, 0 + rules.countP (ruleMatches e.sender e.subject d n0),
              .ok (false || rules.any (ruleMatches e.sender e.subject d n0))) := by
        unfold processSingleEmail; rw [hpd]; exact hrun
      obtain ⟨mb', k', hrec⟩ := ih mb1 k1
        (m + (0 + rules.countP (ruleMatches e.sender e.subject d n0)))
        (acc ++ [.ok (false || rules.any (ruleMatches e.sender e.subject d n0))])
        (fun e' he' => hconds e' (List.mem_cons_of_mem e he')) hacts
      refine ⟨mb', k', ?_⟩
      simp only [processEmailsLoop, hps, hrec]
      simp [emailMatchCount, emailOutcomeSpec, hpd, Nat.add_assoc]

/-- C2: under a constant wall clock, whenever every condition record of
every rule evaluates without an exception on every (parsed) message and
every rule carries an action, the top-level pass completes and reports
`processed` equal to the batch length (this part holds for any batch,
in particular the empty one, where both counts are zero), `matched`
equal to the total number of (message, rule) pairs that match — every
rule checked against every message, with no early termination after a
match — and an `.ok` outcome for every message. -/
theorem pass_reports_exact_counts (parseDate : String → Option PyDateTime)
    (mkId : String → String) (n0 : Int) (rules : List Rule) (emails : List EmailRec)
    (mb : Mailbox)
    (hconds : ∀ e ∈ emails, ∀ d, parseDate e.dateReceived = some d →
      ∀ r ∈ rules, ∀ c ∈ r.conditions,
        ((matchRule c e.sender e.subject d n0).toOption.isSome : Bool) = true)
    (hacts : ∀ r ∈ rules, r.actionKey.isSome = true) :
    (processEmails parseDate mkId (fun _ => n0) rules emails mb).processed
      = emails.length ∧
    (processEmails parseDate mkId (fun _ => n0) rules emails mb).matched
      = (emails.map (emailMatchCount parseDate n0 rules)).sum ∧
    (processEmails parseDate mkId (fun _ => n0) rules emails mb).outcomes
      = emails.map (emailOutcomeSpec parseDate n0 rules) := by
  obtain ⟨mb', k', hrun⟩ := processEmailsLoop_counts parseDate mkId n0 rules emails mb
    0 0 [] hconds hacts
  refine ⟨rfl, ?_, ?_⟩ <;> simp [processEmails, hrun]

/-- C2 witness: a one-message batch against one matching rule reports
processed 1, matched 1; the empty batch reports processed 0, matched 0. -/
theorem pass_reports_exact_counts_witness :
    (processEmails (fun _ => some ⟨740800, 2024, 1, 9, 0⟩) (fun s => s) (fun _ => 7)
        [⟨some "ANY", [mkCond "From" "contains" (.listv ["newsletter"])], some .archive⟩]
        [⟨"id1", "news@newsletter.com", "Update", "x"⟩] ⟨[], [], []⟩).processed = 1 ∧
    (processEmails (fun _ => some ⟨740800, 2024, 1, 9, 0⟩) (fun s => s) (fun _ => 7)
        [⟨some "ANY", [mkCond "From" "contains" (.listv ["newsletter"])], some .archive⟩]
        [⟨"id1", "news@newsletter.com", "Update", "x"⟩] ⟨[], [], []⟩).matched = 1 ∧
    (processEmails (fun _ => some ⟨740800, 2024, 1, 9, 0⟩) (fun s => s) (fun _ => 7)
        [⟨some "ANY", [mkCond "From" "contains" (.listv ["newsletter"])], some .archive⟩]
        [⟨"id1", "news@newsletter.com", "Update", "x"⟩] ⟨[], [], []⟩).outcomes
      = [.ok true] ∧
    (processEmails (fun _ => some ⟨740800, 2024, 1, 9, 0⟩) (fun s => s) (fun _ => 7)
        [⟨some "ANY", [mkCond "From" "contains" (.listv ["newsletter"])], some .archive⟩]
        [] ⟨[], [], []⟩).processed = 0 ∧
    (processEmails (fun _ => some ⟨740800, 2024, 1, 9, 0⟩) (fun s => s) (fun _ => 7)
        [⟨some "ANY", [mkCond "From" "contains" (.listv ["newsletter"])], some .archive⟩]
        [] ⟨[], [], []⟩).matched = 0 := by
  have hacts : ∀ r ∈ [(⟨some "ANY", [mkCond "From" "contains" (.listv ["newsletter"])],
      some .archive⟩ : Rule)], r.actionKey.isSome = true := by
    intro r hr
    simp only [List.mem_singleton] at hr
    subst hr
    rfl
  have h1 := pass_reports_exact_counts (fun _ => some ⟨740800, 2024, 1, 9, 0⟩)
    (fun s => s) 7
    [⟨some "ANY", [mkCond "From" "contains" (.listv ["newsletter"])], some .archive⟩]
    [⟨"id1", "news@newsletter.com", "Update", "x"⟩] ⟨[], [], []⟩
    (by
      intro e he d hd r hr c hc
      simp only [List.mem_singleton] at he hr
      subst he
      subst hr
      cases hd
      simp only [mkCond, List.mem_singleton] at hc
      subst hc
      rfl)
    hacts
  have h2 := pass_reports_exact_counts (fun _ => some ⟨740800, 2024, 1, 9, 0⟩)
    (fun s => s) 7
    [⟨some "ANY", [mkCond "From" "contains" (.listv ["newsletter"])], some .archive⟩]
    [] ⟨[], [], []⟩ (by intro e he; simp at he) hacts
  refine ⟨h1.1, ?_, ?_, h2.1, ?_⟩
  · rw [h1.2.1]; rfl
  · rw [h1.2.2]; rfl
  · rw [h2.2.1]; rfl

/-! ## C10: a missing condition key aborts only that message -/


/-- A condition record missing any of its three keys makes
`_match_rule` raise before the clock is read. -/
theorem matchRule_missing_key (c : CondRecord)
    (hc : c.fieldKey = none ∨ c.conditionKey = none ∨ c.valueKey = none) :
    (∀ (sender subject : String) (d : PyDateTime) (n : Int),
      matchRule c sender subject d n = .error (missingKeyErr c)) ∧
    usesClock c = false := by
  obtain ⟨f, cc, v⟩ := c
  cases f with
  | none => exact ⟨fun _ _ _ _ => rfl, rfl⟩
  | some f =>
    cases cc with
    | none => exact ⟨fun _ _ _ _ => rfl, rfl⟩
    | some cc =>
      cases v with
      | none => exact ⟨fun _ _ _ _ => rfl, rfl⟩
      | some v => simp at hc

/-- Splitting the condition loop after a successfully evaluated
initial segment. -/
theorem evalConds_append_ok (clock : Nat → Int) (sender subject : String)
    (d : PyDateTime) (l1 : List CondRecord) :
    ∀ (k : Nat) (bs : List Bool) (k' : Nat),
      evalConds clock sender subject d l1 k = (.ok bs, k') →
      ∀ l2, evalConds clock sender subject d (l1 ++ l2) k
        = match evalConds clock sender subject d l2 k' with
          | (.error e, k'') => (.error e, k'')
          | (.ok bs2, k'') => (.ok (bs ++ bs2), k'') := by
  induction l1 with
  | nil =>
    intro k bs k' h l2
    simp only [evalConds, Prod.mk.injEq] at h
    obtain ⟨h1, h2⟩ := h
    obtain rfl : bs = [] := (Except.ok.inj h1).symm
    subst h2
    simp only [List.nil_append]
    rcases hev : evalConds clock sender subject d l2 k with ⟨res, k2⟩
    cases res <;> simp
  | cons c cs ih =>
    intro k bs k' h l2
    rcases hm : matchRuleClocked clock k c sender subject d with ⟨res, k1⟩
    cases res with
    | error e =>
      simp only [evalConds, hm] at h
      simp at h
    | ok b =>
      simp only [evalConds, hm] at h
      rcases hev : evalConds clock sender subject d cs k1 with ⟨res2, k2⟩
      rw [hev] at h
      cases res2 with
      | error e => simp at h
      | ok bs1 =>
        have hbs : bs = b :: bs1 := by
          have := (Prod.mk.inj h).1
          exact (Except.ok.inj this).symm
        have hk : k2 = k' := (Prod.mk.inj h).2
        subst hbs
        subst hk
        simp only [List.cons_append, List.append_eq, evalConds, hm]
        rw [ih k1 bs1 k2 hev l2]
        rcases hev2 : evalConds clock sender subject d l2 k2 with ⟨res3, k3⟩
        cases res3 <;> simp

/-- Splitting the rule loop after a normally completed initial
segment. -/
theorem runRules_append_ok (mkId : String → String) (clock : Nat → Int)
    (gid sender subject : String) (d : PyDateTime) (rs1 : List Rule) :
    ∀ (mb : Mailbox) (k inc : Nat) (any : Bool) (mb1 : Mailbox) (k1 inc1 : Nat)
      (any1 : Bool),
      runRules mkId clock gid sender subject d rs1 mb k inc any
        = (mb1, k1, inc1, .ok any1) →
      ∀ rs2, runRules mkId clock gid sender subject d (rs1 ++ rs2) mb k inc any
        = runRules mkId clock gid sender subject d rs2 mb1 k1 inc1 any1 := by
  induction rs1 with
  | nil =>
    intro mb k inc any mb1 k1 inc1 any1 h rs2
    simp only [runRules, Prod.mk.injEq] at h
    obtain ⟨h1, h2, h3, h4⟩ := h
    subst h1
    subst h2
    subst h3
    rw [Except.ok.inj h4]
    rfl
  | cons r rest ih =>
    intro mb k inc any mb1 k1 inc1 any1 h rs2
    by_cases hemp : r.conditions.isEmpty = true
    · simp only [runRules, hemp, if_true] at h
      simp only [List.cons_append, runRules, hemp, if_true]
      exact ih mb k inc any mb1 k1 inc1 any1 h rs2
    · have hemp' : r.conditions.isEmpty = false := by simpa using hemp
      rcases hev : evalConds clock sender subject d r.conditions k with ⟨res, k2⟩
      cases res with
      | error e =>
        simp only [runRules, hemp', Bool.false_eq_true, if_false, hev] at h
        simp at h
      | ok results =>
        by_cases hv : ruleVerdict r.predicateKey results = true
        · cases ha : r.actionKey with
          | none =>
            simp only [runRules, hemp', Bool.false_eq_true, if_false, hev, hv, if_true,
              ha] at h
            simp at h
          | some a =>
            simp only [runRules, hemp', Bool.false_eq_true, if_false, hev, hv, if_true,
              ha] at h
            simp only [List.cons_append, runRules, hemp', Bool.false_eq_true, if_false,
              hev, hv, if_true, ha]
            exact ih _ _ _ _ mb1 k1 inc1 any1 h rs2
        · have hv' : ruleVerdict r.predicateKey results = false := by simpa using hv
          simp only [runRules, hemp', Bool.false_eq_true, if_false, hev, hv',
            Bool.false_eq_true, if_false] at h
          simp only [List.cons_append, runRules, hemp', Bool.false_eq_true, if_false,
            hev, hv', Bool.false_eq_true, if_false]
          exact ih _ _ _ _ mb1 k1 inc1 any1 h rs2

/-- C10: when a condition record missing `field`, `condition` or
`value` is reached (after a well-evaluated prefix of rules and of this
rule's earlier conditions), the resulting `KeyError` aborts exactly the
rest of that message — the result does not depend on the remaining
conditions (`cpost`) or rules (`rulesPost`), no further action runs and
the mailbox stays at its pre-error state — while the per-email handler
absorbs the error: the loop records it and continues with the next
message, the matched increments earned before the error are kept, and
the message still counts in `processed`. -/
theorem missing_key_absorbed (parseDate : String → Option PyDateTime)
    (mkId : String → String) (clock : Nat → Int) (e : EmailRec) (d : PyDateTime)
    (hd : parseDate e.dateReceived = some d)
    (c : CondRecord)
    (hc : c.fieldKey = none ∨ c.conditionKey = none ∨ c.valueKey = none)
    (cpre cpost : List CondRecord) (r : Rule) (hr : r.conditions = cpre ++ c :: cpost)
    (rulesPre rulesPost : List Rule) (mb : Mailbox) (k : Nat)
    (mb1 : Mailbox) (k1 inc1 : Nat) (any1 : Bool)
    (hpre : runRules mkId clock e.gmailId e.sender e.subject d rulesPre mb k 0 false
      = (mb1, k1, inc1, .ok any1))
    (bs : List Bool) (k2 : Nat)
    (hcpre : evalConds clock e.sender e.subject d cpre k1 = (.ok bs, k2)) :
    processSingleEmail parseDate mkId clock (rulesPre ++ r :: rulesPost) mb k e
      = (mb1, k2, inc1, .error (missingKeyErr c)) ∧
    (∀ (post : List EmailRec) (m : Nat) (acc : List (Except PyErr Bool)),
      processEmailsLoop parseDate mkId clock (rulesPre ++ r :: rulesPost) (e :: post)
          mb k m acc
        = processEmailsLoop parseDate mkId clock (rulesPre ++ r :: rulesPost) post mb1 k2
            (m + inc1) (acc ++ [.error (missingKeyErr c)])) ∧
    (∀ post : List EmailRec,
      (processEmails parseDate mkId clock (rulesPre ++ r :: rulesPost) (e :: post)
          mb).processed = post.length + 1) := by
  have hcl := matchRule_missing_key c hc
  have hev1 : evalConds clock e.sender e.subject d (c :: cpost) k2
      = (.error (missingKeyErr c), k2) := by
    simp only [evalConds, matchRuleClocked, hcl.1 e.sender e.subject d (clock k2),
      hcl.2, Bool.false_eq_true, if_false]
  have hevfull : evalConds clock e.sender e.subject d (cpre ++ c :: cpost) k1
      = (.error (missingKeyErr c), k2) := by
    rw [evalConds_append_ok clock e.sender e.subject d cpre k1 bs k2 hcpre (c :: cpost),
      hev1]
  have hne : (cpre ++ c :: cpost).isEmpty = false := by
    cases cpre <;> rfl
  have hrune : runRules mkId clock e.gmailId e.sender e.subject d (r :: rulesPost)
      mb1 k1 inc1 any1 = (mb1, k2, inc1, .error (missingKeyErr c)) := by
    simp only [runRules, hr, hne, Bool.false_eq_true, if_false, hevfull]
  have hfull : runRules mkId clock e.gmailId e.sender e.subject d
      (rulesPre ++ r :: rulesPost) mb k 0 false
      = (mb1, k2, inc1, .error (missingKeyErr c)) := by
    rw [runRules_append_ok mkId clock e.gmailId e.sender e.subject d rulesPre mb k 0
      false mb1 k1 inc1 any1 hpre (r :: rulesPost), hrune]
  have hps : processSingleEmail parseDate mkId clock (rulesPre ++ r :: rulesPost) mb k e
      = (mb1, k2, inc1, .error (missingKeyErr c)) := by
    unfold processSingleEmail
    rw [hd]
    exact hfull
  refine ⟨hps, ?_, fun post => rfl⟩
  intro post m acc
  conv_lhs => rw [processEmailsLoop]
  rw [hps]

/-- C10 witness: a rule whose only condition lacks the `field` key
aborts its message with a `KeyError` while the following message is
still processed and `processed` counts both. -/
theorem missing_key_absorbed_witness :
    processSingleEmail (fun _ => some ⟨740800, 2024, 1, 9, 0⟩) (fun s => s) (fun _ => 0)
        [⟨some "ANY", [⟨none, some "contains", some (.str "x")⟩], some .archive⟩]
        ⟨[], [], []⟩ 0 ⟨"w1", "a@x.com", "s", "raw"⟩
      = (⟨[], [], []⟩, 0, 0, .error (.keyError "field")) ∧
    (processEmails (fun _ => some ⟨740800, 2024, 1, 9, 0⟩) (fun s => s) (fun _ => 0)
        [⟨some "ANY", [⟨none, some "contains", some (.str "x")⟩], some .archive⟩]
        [⟨"w1", "a@x.com", "s", "raw"⟩, ⟨"w2", "b@x.com", "t", "raw"⟩]
        ⟨[], [], []⟩).processed = 2 := by
  have h := missing_key_absorbed (fun _ => some ⟨740800, 2024, 1, 9, 0⟩) (fun s => s)
    (fun _ => 0) ⟨"w1", "a@x.com", "s", "raw"⟩ ⟨740800, 2024, 1, 9, 0⟩ rfl
    ⟨none, some "contains", some (.str "x")⟩ (Or.inl rfl) [] []
    ⟨some "ANY", [⟨none, some "contains", some (.str "x")⟩], some .archive⟩ rfl
    [] [] ⟨[], [], []⟩ 0 ⟨[], [], []⟩ 0 0 false rfl [] 0 rfl
  exact ⟨h.1, h.2.2 [⟨"w2", "b@x.com", "t", "raw"⟩]⟩
